import Mathlib

/-!
# Verification of the email-campaign template renderer and mailto builder

Shallow embedding of the repository's string-processing core.  JavaScript
strings are modelled as `List Char` (for the inputs that occur in this code
base — well-formed text without lone surrogates — JS UTF-16 semantics and
Unicode-scalar semantics agree, and `.length` counts match on the ASCII
strings involved in every concrete statement below).

JS primitives modelled here, each matching ECMAScript behaviour:
* `String.prototype.replace(string, v)`  — first occurrence only (`replaceFirstL`);
* `String.prototype.replace(/re/g, v)` / `replaceAll` — left-to-right,
  non-overlapping, no rescan of the substituted text (`replaceAllL`);
* `String.prototype.split(string)` (`splitOnL`), `Array.prototype.join` (`joinSep`);
* `String.prototype.trim` (`trimL`, ASCII whitespace — all inputs below are ASCII);
* `encodeURIComponent` (`encodeURIComponent`: unreserved chars kept, everything
  else UTF-8 percent-encoded with uppercase hex).
-/

/-- Boolean test that the first list is a leading segment of the second. -/
def startsWithL : List Char → List Char → Bool
  | [], _ => true
  | _ :: _, [] => false
  | a :: as, b :: bs => a == b && startsWithL as bs

/-- Boolean substring test: does `p` occur contiguously inside `s`? -/
def containsSub (p : List Char) : List Char → Bool
  | [] => startsWithL p []
  | s@(_ :: cs) => startsWithL p s || containsSub p cs

/-- Boolean test that `p` is a trailing segment of `s`. -/
def endsWithL (p s : List Char) : Bool :=
  startsWithL p.reverse s.reverse

/-- ASCII whitespace, as relevant to `String.prototype.trim` on the inputs here. -/
def isWs (c : Char) : Bool :=
  c == ' ' || c == '\t' || c == '\n' || c == '\r' || c == Char.ofNat 11 || c == Char.ofNat 12

/-- JS `String.prototype.trim`. -/
def trimL (s : List Char) : List Char :=
  ((s.dropWhile isWs).reverse.dropWhile isWs).reverse

/-- JS `s.replace(p, r)` with a *string* pattern: only the first occurrence
of `p` is replaced (this detail matters for `part_005`'s `buildMailto`). -/
def replaceFirstL (p r : List Char) : List Char → List Char
  | [] => if startsWithL p [] then r else []
  | c :: cs =>
    if startsWithL p (c :: cs) then r ++ List.drop p.length (c :: cs)
    else c :: replaceFirstL p r cs

/-- Fuel-indexed worker for global replacement; the fuel only serves to make
the recursion structural (it never runs out when `s.length ≤ fuel`). -/
def replaceAllGo (p r : List Char) : Nat → List Char → List Char
  | _, [] => []
  | 0, s => s
  | Nat.succ fuel, c :: cs =>
    if !p.isEmpty && startsWithL p (c :: cs) then
      r ++ replaceAllGo p r fuel (List.drop (p.length - 1) cs)
    else
      c :: replaceAllGo p r fuel cs

/-- JS `s.replace(/p/g, r)` (and `replaceAll`): every occurrence of `p`, found
left-to-right without overlap, is replaced; substituted text is not rescanned. -/
def replaceAllL (p r s : List Char) : List Char :=
  replaceAllGo p r s.length s

/-- Fuel-indexed worker for `split`. -/
def splitOnGo (sep : List Char) : Nat → List Char → List (List Char)
  | _, [] => [[]]
  | 0, s => [s]
  | Nat.succ fuel, c :: cs =>
    if !sep.isEmpty && startsWithL sep (c :: cs) then
      [] :: splitOnGo sep fuel (List.drop (sep.length - 1) cs)
    else
      match splitOnGo sep fuel cs with
      | [] => [[c]]
      | t :: ts => (c :: t) :: ts

/-- JS `s.split(sep)` for a non-empty string separator. -/
def splitOnL (sep s : List Char) : List (List Char) :=
  splitOnGo sep s.length s

/-- JS `Array.prototype.join(sep)`. -/
def joinSep (sep : List Char) : List (List Char) → List Char
  | [] => []
  | [x] => x
  | x :: y :: xs => x ++ sep ++ joinSep sep (y :: xs)

/-- Characters `encodeURIComponent` leaves unescaped (ECMA-262):
ASCII letters, digits, and `- _ . ! ~ * ' ( )`. -/
def isUnreserved (c : Char) : Bool :=
  let n := c.toNat
  decide ((65 ≤ n ∧ n ≤ 90) ∨ (97 ≤ n ∧ n ≤ 122) ∨ (48 ≤ n ∧ n ≤ 57) ∨
    n ∈ ([45, 95, 46, 33, 126, 42, 39, 40, 41] : List Nat))

/-- UTF-8 byte sequence of one Unicode scalar value. -/
def utf8Bytes (c : Char) : List Nat :=
  let n := c.toNat
  if n < 128 then [n]
  else if n < 2048 then [192 + n / 64, 128 + n % 64]
  else if n < 65536 then [224 + n / 4096, 128 + (n / 64) % 64, 128 + n % 64]
  else [240 + n / 262144, 128 + (n / 4096) % 64, 128 + (n / 64) % 64, 128 + n % 64]

/-- Uppercase hexadecimal digit. -/
def hexDigitChar (n : Nat) : Char :=
  if n < 10 then Char.ofNat (48 + n) else Char.ofNat (55 + n)

/-- One percent-escaped byte, e.g. `%0A`. -/
def pctByte (b : Nat) : List Char :=
  ['%', hexDigitChar (b / 16), hexDigitChar (b % 16)]

/-- Percent-escape every UTF-8 byte of a character. -/
def pctEncodeChar (c : Char) : List Char :=
  (utf8Bytes c).foldr (fun b acc => pctByte b ++ acc) []

/-- JS `encodeURIComponent`. -/
def encodeURIComponent : List Char → List Char
  | [] => []
  | c :: cs => (if isUnreserved c then [c] else pctEncodeChar c) ++ encodeURIComponent cs

/-- The template token `{{name}}`. -/
def nameTok : List Char := "\x7b\x7bname\x7d\x7d".toList

/-- The template token `{{postcode}}`. -/
def pcTok : List Char := "\x7b\x7bpostcode\x7d\x7d".toList

/-- The paragraph separator `"\n\n"`. -/
def nl2 : List Char := "\n\n".toList

/-- The note marker `"\n\nP.S. "` used by the server route and `part_005`. -/
def psMark : List Char := "\n\nP.S. ".toList

/-- CRLF, the mailto line-break convention. -/
def crlf : List Char := "\r\n".toList
/-- Character-wise view of the newline-to-CRLF conversion: each `'\n'` becomes
`"\r\n"`, every other character is kept. -/
def crlfExpand : List Char → List Char
  | [] => []
  | c :: cs => (if c = '\n' then crlf else [c]) ++ crlfExpand cs

/-!
## `src/client/src/lib/email-utils.ts` — the length/compatibility checker
-/

/-- `MAILTO_LENGTH_WARNING` (email-utils.ts line 5). -/
def MAILTO_LENGTH_WARNING : Nat := 1800

/-- `MAILTO_LENGTH_CRITICAL` (email-utils.ts line 6). -/
def MAILTO_LENGTH_CRITICAL : Nat := 2000

/-- Result record of `checkEmailLength` (email-utils.ts `EmailLengthCheck`). -/
structure EmailLengthCheck where
  totalLength : Nat
  isWarning : Bool
  isCritical : Bool
  message : List Char
deriving DecidableEq, Repr

/-- The critical-branch message text (email-utils.ts line 27). -/
def criticalMsg (n : Nat) : List Char :=
  "Email is too long (".toList ++ (Nat.repr n).toList ++
    " chars). Some email clients may not open it. Consider shortening the message or using copy-to-clipboard instead.".toList

/-- The warning-branch message text (email-utils.ts line 30). -/
def warningMsg (n : Nat) : List Char :=
  "Email is getting long (".toList ++ (Nat.repr n).toList ++
    " chars). Keep it under 2000 characters for best compatibility.".toList

/-- `checkEmailLength` (email-utils.ts lines 15-39): length of the string
`mailto:?subject=<enc(subject)>&body=<enc(body)>`, classified against the two
thresholds by an if / else-if chain. -/
def checkEmailLength (subject body : List Char) : EmailLengthCheck :=
  let encodedSubject := encodeURIComponent subject
  let encodedBody := encodeURIComponent body
  let totalLength :=
    ("mailto:?subject=".toList ++ encodedSubject ++ "&body=".toList ++ encodedBody).length
  if MAILTO_LENGTH_CRITICAL < totalLength then
    { totalLength := totalLength, isWarning := false, isCritical := true,
      message := criticalMsg totalLength }
  else if MAILTO_LENGTH_WARNING < totalLength then
    { totalLength := totalLength, isWarning := true, isCritical := false,
      message := warningMsg totalLength }
  else
    { totalLength := totalLength, isWarning := false, isCritical := false, message := [] }

/-!
## `src/unnamed/part_001` — React campaign page (per-recipient flow)
-/

/-- A campaign recipient (shared/schema.ts `recipients`: name and email). -/
structure RecipientR where
  name : List Char
  email : List Char
deriving DecidableEq, Repr

/-- The placeholder-substitution part of `generateEmailBody` (part_001 lines
908-912): global replacement with the JS `||` fallbacks for empty form fields. -/
def clientRender (campaignBody fdName fdPostcode : List Char) : List Char :=
  replaceAllL pcTok (if fdPostcode = [] then "[Your Postcode]".toList else fdPostcode)
    (replaceAllL nameTok (if fdName = [] then "[Your Name]".toList else fdName) campaignBody)

/-- `generateEmailBody` (part_001 lines 906-927): substitution, then — when a
personal note is present after trimming — the note is spliced in as a second
paragraph when the body has more than one paragraph, and appended after a
blank line otherwise. -/
def generateEmailBody (campaignBody fdName fdPostcode fdNote : List Char) : List Char :=
  let body := clientRender campaignBody fdName fdPostcode
  let t := trimL fdNote
  if t = [] then body
  else
    let paragraphs := splitOnL nl2 body
    if 1 < paragraphs.length then
      joinSep nl2 (paragraphs.headD [] :: t :: paragraphs.tail)
    else
      body ++ nl2 ++ t

/-- `generateMailtoLink` (part_001 lines 929-933):
`mailto:<recipient.email>?subject=<enc>&body=<enc(generateEmailBody)>`. -/
def generateMailtoLink (recipientEmail subject campaignBody fdName fdPostcode fdNote : List Char) :
    List Char :=
  "mailto:".toList ++ recipientEmail ++ "?subject=".toList ++ encodeURIComponent subject ++
    "&body=".toList ++ encodeURIComponent (generateEmailBody campaignBody fdName fdPostcode fdNote)

/-- Observable outcome of `handleSendEmails` (part_001 lines 950-985):
whether the submission was recorded via `submitEmailMutation.mutate`, which
mailto URLs were opened, and the error toast shown, if any. -/
structure SendResult where
  submitted : Bool
  openedUrls : List (List Char)
  errorMsg : Option (List Char)
deriving DecidableEq, Repr

/-- `handleSendEmails` (part_001 lines 950-985): inactive-campaign guard, then
the per-recipient critical-length check (`checkRecipientEmailLength` uses the
campaign subject and the shared rendered body), then the submission is
recorded and one mailto URL per recipient is opened.  Note: there is no guard
against an empty recipient list. -/
def handleSendEmails (isActive : Bool) (subject campaignBody : List Char)
    (recipients : List RecipientR) (fdName fdPostcode fdNote : List Char) : SendResult :=
  if isActive = false then
    { submitted := false, openedUrls := [],
      errorMsg := some "This campaign is no longer active and cannot accept submissions".toList }
  else
    let criticalRecipients := recipients.filter (fun _ =>
      (checkEmailLength subject (generateEmailBody campaignBody fdName fdPostcode fdNote)).isCritical)
    if criticalRecipients ≠ [] then
      { submitted := false, openedUrls := [],
        errorMsg := some "The email is too long for some recipients. Please use the copy button instead or shorten your message.".toList }
    else
      { submitted := true,
        openedUrls := recipients.map (fun r =>
          generateMailtoLink r.email subject campaignBody fdName fdPostcode fdNote),
        errorMsg := none }

/-- The campaign fields used by the letter-PDF flow. -/
structure ClientCampaign where
  title : List Char
  subject : List Char
  body : List Char
deriving DecidableEq, Repr

/-- One per-recipient letter of `generateLetterPDF` (email-utils.ts lines
76-163), reduced to its text content (layout is presentation). -/
structure LetterBlock where
  recipientName : List Char
  recipientEmail : List Char
  bodyText : List Char
deriving DecidableEq, Repr

/-- The letter body of `generateLetterPDF` (email-utils.ts lines 133-140):
global substitution (postcode falls back to `[Your Postcode]`), then the
personal note appended after a blank line when present. -/
def letterBlockBody (campaignBody fdName fdPostcode fdNote : List Char) : List Char :=
  let bodyText :=
    replaceAllL pcTok (if fdPostcode = [] then "[Your Postcode]".toList else fdPostcode)
      (replaceAllL nameTok fdName campaignBody)
  if fdNote = [] then bodyText else bodyText ++ nl2 ++ fdNote

/-- `handleGenerateLetterPDF` (part_001 lines 1008-1058): fails fast (error
toast, no PDF) when the campaign is missing or the recipient list is empty,
or when the sender's name or email is missing; otherwise produces one letter
block per recipient. -/
def handleGenerateLetterPDF (campaign : Option ClientCampaign) (recipients : List RecipientR)
    (fdName fdEmail fdPostcode fdNote : List Char) : Option (List LetterBlock) :=
  match campaign with
  | none => none
  | some c =>
    if recipients = [] then none
    else if fdName = [] ∨ fdEmail = [] then none
    else some (recipients.map (fun r =>
      { recipientName := r.name, recipientEmail := r.email,
        bodyText := letterBlockBody c.body fdName fdPostcode fdNote }))

/-!
## `src/server/routes.ts` — `/api/generate-email` (legacy aggregate flow)
-/

/-- A recipient of the legacy single-campaign config (shared/schema.ts
`LegacyRecipient`). -/
structure LegacyRecipientL where
  name : List Char
  email : List Char
deriving DecidableEq, Repr

/-- The legacy campaign config (shared/schema.ts `CampaignConfig`). -/
structure CampaignConfigL where
  title : List Char
  tagline : List Char
  subject : List Char
  body : List Char
  recipients : List LegacyRecipientL
deriving DecidableEq, Repr

/-- The placeholder substitution of `/api/generate-email` (routes.ts lines
443-445): global replacement of `{{name}}` then `{{postcode}}` (a missing
postcode arrives as the empty string via `postcode || ''`). -/
def serverRender (configBody name postcode : List Char) : List Char :=
  replaceAllL pcTok postcode (replaceAllL nameTok name configBody)

/-- The body built by `/api/generate-email` (routes.ts lines 443-449):
substitution, then `'\n\nP.S. ' + note` appended when a note is present. -/
def generateEmailBodyServer (configBody name postcode note : List Char) : List Char :=
  let body := serverRender configBody name postcode
  if note = [] then body else body ++ psMark ++ note

/-- The mailto URL built by `/api/generate-email` (routes.ts lines 451-457):
comma-joined recipient emails in stored order, the config subject encoded
verbatim, and one shared encoded body. -/
def generateEmailUrl (config : CampaignConfigL) (name postcode note : List Char) : List Char :=
  "mailto:".toList ++ joinSep [','] (config.recipients.map LegacyRecipientL.email) ++
    "?subject=".toList ++ encodeURIComponent config.subject ++
    "&body=".toList ++ encodeURIComponent (generateEmailBodyServer config.body name postcode note)

/-!
## `src/unnamed/part_005` — legacy static client (`buildMailto`)
-/

/-- The placeholder substitution of `buildMailto` (part_005 lines 32-34):
JS `String.prototype.replace` with *string* patterns, so only the first
occurrence of each token is replaced; the form values are trimmed. -/
def p5Render (cfgBody nameVal pcVal : List Char) : List Char :=
  replaceFirstL pcTok (trimL pcVal) (replaceFirstL nameTok (trimL nameVal) cfgBody)

/-- The body built by `buildMailto` (part_005 lines 32-37): substitution, then
`"\n\nP.S. " + note` appended when the trimmed note is non-empty. -/
def p5Body (cfgBody nameVal pcVal noteVal : List Char) : List Char :=
  let body := p5Render cfgBody nameVal pcVal
  let note := trimL noteVal
  if note = [] then body else body ++ psMark ++ note

/-- `buildMailto` (part_005 lines 28-44): comma-joined recipient emails, the
config subject (with a default when empty, per `cfg.subject || ...`), and the
body with newlines converted to CRLF before percent-encoding. -/
def buildMailto (cfg : CampaignConfigL) (nameVal pcVal noteVal : List Char) : List Char :=
  let recipientsJoined := joinSep [','] (cfg.recipients.map LegacyRecipientL.email)
  let subject := if cfg.subject = [] then "Your constituent has concerns".toList else cfg.subject
  let encBody := encodeURIComponent (replaceAllL ['\n'] crlf (p5Body cfg.body nameVal pcVal noteVal))
  "mailto:".toList ++ recipientsJoined ++ "?subject=".toList ++ encodeURIComponent subject ++
    "&body=".toList ++ encBody

/-!
## `src/server/routes.ts` — `POST /api/campaigns/:id/submit` and
   `src/server/storage.ts` — `createEmailSubmission`
-/

/-- The campaign flags consulted by the submit route. -/
structure CampaignRow where
  isPublic : Bool
  isActive : Bool
deriving DecidableEq, Repr

/-- The raw request body of the submit route (missing optional fields are
modelled as the empty string, matching the `|| null` normalisation). -/
structure SubmissionReq where
  name : List Char
  email : List Char
  postcode : List Char
  personalNote : List Char
deriving DecidableEq, Repr

/-- The persisted `EmailSubmission` row (storage.ts lines 225-238). -/
structure StoredSubmission where
  senderName : List Char
  senderEmail : List Char
  postcode : Option (List Char)
  personalNote : Option (List Char)
deriving DecidableEq, Repr

/-- Observable outcome of the submit route: HTTP status and the row written
by `createEmailSubmission`, if any. -/
structure SubmitOutcome where
  status : Nat
  stored : Option StoredSubmission
deriving DecidableEq, Repr

/-- The field mapping of routes.ts lines 373-378 (`postcode || null`,
`personalNote || null`). -/
def mkStoredSubmission (req : SubmissionReq) : StoredSubmission :=
  { senderName := req.name, senderEmail := req.email,
    postcode := if req.postcode = [] then none else some req.postcode,
    personalNote := if req.personalNote = [] then none else some req.personalNote }

/-- `POST /api/campaigns/:id/submit` (routes.ts lines 356-394).  `lookup` is
the result of `storage.getCampaignById`; `validate` models the zod
`emailSubmissionRequestSchema.parse` (an external library: non-empty name and
RFC-shape email), which throws — yielding a 400 — exactly when it returns
`false`.  Order as in the source: existence check (404), public/active check
(403), schema validation (400), then — and only then — the row is created
(201). -/
def submitRoute (lookup : Option CampaignRow) (req : SubmissionReq)
    (validate : SubmissionReq → Bool) : SubmitOutcome :=
  match lookup with
  | none => { status := 404, stored := none }
  | some c =>
    if !c.isPublic || !c.isActive then { status := 403, stored := none }
    else if validate req then { status := 201, stored := some (mkStoredSubmission req) }
    else { status := 400, stored := none }


/-!
## Concrete fixtures used in closed statements
-/

/-- A template containing the `{{name}}` token twice. -/
def tmplDouble : List Char := nameTok ++ (' ' :: nameTok)

/-- A template whose name-token replacement can splice a new token together:
`"\x7b\x7bnam" ++ "\x7b\x7bname\x7d\x7d"`. -/
def tmplSplice : List Char := "\x7b\x7bnam".toList ++ nameTok

/-- The spec's end-to-end template. -/
def tmplGreeting : List Char := "Dear \x7b\x7bname\x7d\x7d from \x7b\x7bpostcode\x7d\x7d".toList

/-- Legacy recipient `a@x.com` from the spec's order-preservation test. -/
def recipAX : LegacyRecipientL := { name := "A".toList, email := "a@x.com".toList }

/-- Legacy recipient `b@x.com` from the spec's order-preservation test. -/
def recipBX : LegacyRecipientL := { name := "B".toList, email := "b@x.com".toList }

/-- Config with recipients `[a@x.com, b@x.com]`. -/
def cfgAB : CampaignConfigL :=
  { title := "t".toList, tagline := [], subject := "s".toList, body := "hi".toList,
    recipients := [recipAX, recipBX] }

/-- Config with recipients `[b@x.com, a@x.com]`. -/
def cfgBA : CampaignConfigL :=
  { title := "t".toList, tagline := [], subject := "s".toList, body := "hi".toList,
    recipients := [recipBX, recipAX] }

/-- Config with the duplicate recipient list `[a@x.com, a@x.com]`. -/
def cfgAA : CampaignConfigL :=
  { title := "t".toList, tagline := [], subject := "s".toList, body := "hi".toList,
    recipients := [recipAX, recipAX] }

/-- Config whose body contains a newline (for the CRLF question). -/
def cfgNL : CampaignConfigL :=
  { title := "t".toList, tagline := [], subject := "s".toList, body := "a\nb".toList,
    recipients := [{ name := "R".toList, email := "r@x.com".toList }] }

/-!
## Basic lemmas about the string primitives
-/

lemma startsWithL_append_drop :
    ∀ (p s : List Char), startsWithL p s = true → p ++ List.drop p.length s = s
  | [], s, _ => by simp
  | a :: as, [], h => by simp [startsWithL] at h
  | a :: as, b :: bs, h => by
    simp only [startsWithL, Bool.and_eq_true, beq_iff_eq] at h
    obtain ⟨rfl, h2⟩ := h
    have := startsWithL_append_drop as bs h2
    simpa [List.length_cons, List.drop_succ_cons] using congrArg (a :: ·) this

lemma replaceAllGo_nil (p r : List Char) (f : Nat) : replaceAllGo p r f [] = [] := by
  cases f <;> rfl

lemma replaceAllGo_fuel (p r : List Char) :
    ∀ (f₁ f₂ : Nat) (s : List Char), s.length ≤ f₁ → s.length ≤ f₂ →
      replaceAllGo p r f₁ s = replaceAllGo p r f₂ s := by
  intro f₁
  induction f₁ with
  | zero =>
    intro f₂ s h₁ _
    have hs : s = [] := List.eq_nil_of_length_eq_zero (Nat.le_zero.mp h₁)
    subst hs
    simp [replaceAllGo_nil]
  | succ f ih =>
    intro f₂ s h₁ h₂
    match s, f₂ with
    | [], _ => simp [replaceAllGo_nil]
    | c :: cs, 0 => simp at h₂
    | c :: cs, Nat.succ f₂' =>
      simp only [List.length_cons, Nat.succ_le_succ_iff] at h₁ h₂
      show replaceAllGo p r (f + 1) (c :: cs) = replaceAllGo p r (f₂' + 1) (c :: cs)
      simp only [replaceAllGo]
      split
      · exact congrArg (r ++ ·)
          (ih f₂' _ (by simp only [List.length_drop]; omega)
            (by simp only [List.length_drop]; omega))
      · exact congrArg (c :: ·) (ih f₂' cs h₁ h₂)

lemma replaceAllL_nil (p r : List Char) : replaceAllL p r [] = [] := rfl

lemma replaceAllL_cons (p r : List Char) (c : Char) (cs : List Char) :
    replaceAllL p r (c :: cs) =
      if !p.isEmpty && startsWithL p (c :: cs) then
        r ++ replaceAllL p r (List.drop (p.length - 1) cs)
      else
        c :: replaceAllL p r cs := by
  show replaceAllGo p r (cs.length + 1) (c :: cs) = _
  simp only [replaceAllGo]
  split
  · exact congrArg (r ++ ·)
      (replaceAllGo_fuel p r _ _ _ (by simp [List.length_drop]) (le_refl _))
  · rfl

lemma splitOnGo_nil (sep : List Char) (f : Nat) : splitOnGo sep f [] = [[]] := by
  cases f <;> rfl

lemma splitOnGo_ne_nil (sep : List Char) : ∀ (f : Nat) (s : List Char), splitOnGo sep f s ≠ [] := by
  intro f s
  match f, s with
  | f, [] => rw [splitOnGo_nil]; simp
  | 0, c :: cs => simp [splitOnGo]
  | Nat.succ f, c :: cs =>
    simp only [splitOnGo]
    split
    · simp
    · cases splitOnGo sep f cs <;> simp

lemma splitOnGo_fuel (sep : List Char) :
    ∀ (f₁ f₂ : Nat) (s : List Char), s.length ≤ f₁ → s.length ≤ f₂ →
      splitOnGo sep f₁ s = splitOnGo sep f₂ s := by
  intro f₁
  induction f₁ with
  | zero =>
    intro f₂ s h₁ _
    have hs : s = [] := List.eq_nil_of_length_eq_zero (Nat.le_zero.mp h₁)
    subst hs
    simp [splitOnGo_nil]
  | succ f ih =>
    intro f₂ s h₁ h₂
    match s, f₂ with
    | [], _ => simp [splitOnGo_nil]
    | c :: cs, 0 => simp at h₂
    | c :: cs, Nat.succ f₂' =>
      simp only [List.length_cons, Nat.succ_le_succ_iff] at h₁ h₂
      show splitOnGo sep (f + 1) (c :: cs) = splitOnGo sep (f₂' + 1) (c :: cs)
      simp only [splitOnGo]
      split
      · exact congrArg (List.cons [])
          (ih f₂' _ (by simp [List.length_drop]; omega) (by simp [List.length_drop]; omega))
      · rw [ih f₂' cs h₁ h₂]

lemma splitOnL_cons (sep : List Char) (c : Char) (cs : List Char) :
    splitOnL sep (c :: cs) =
      if !sep.isEmpty && startsWithL sep (c :: cs) then
        [] :: splitOnL sep (List.drop (sep.length - 1) cs)
      else
        match splitOnL sep cs with
        | [] => [[c]]
        | t :: ts => (c :: t) :: ts := by
  show splitOnGo sep (cs.length + 1) (c :: cs) = _
  simp only [splitOnGo]
  split
  · exact congrArg (List.cons [])
      (splitOnGo_fuel sep _ _ _ (by simp [List.length_drop]) (le_refl _))
  · rfl

lemma splitOnL_ne_nil (sep s : List Char) : splitOnL sep s ≠ [] :=
  splitOnGo_ne_nil sep s.length s

lemma joinSep_cons_of_ne (sep x : List Char) (l : List (List Char)) (h : l ≠ []) :
    joinSep sep (x :: l) = x ++ sep ++ joinSep sep l := by
  cases l with
  | nil => exact absurd rfl h
  | cons y ys => rfl

lemma joinSep_cons_cons (sep : List Char) (c : Char) (t : List Char) (ts : List (List Char)) :
    joinSep sep ((c :: t) :: ts) = c :: joinSep sep (t :: ts) := by
  cases ts with
  | nil => rfl
  | cons y ys => simp [joinSep, List.cons_append, List.append_assoc]

/-- Splitting and re-joining with the same separator is the identity
(`split`/`join` round-trip, as used by `generateEmailBody`). -/
lemma joinSep_splitOnGo (sep : List Char) :
    ∀ (f : Nat) (s : List Char), s.length ≤ f → joinSep sep (splitOnGo sep f s) = s := by
  intro f
  induction f with
  | zero =>
    intro s h
    have hs : s = [] := List.eq_nil_of_length_eq_zero (Nat.le_zero.mp h)
    subst hs
    rfl
  | succ f ih =>
    intro s h
    match s with
    | [] => rfl
    | c :: cs =>
      simp only [List.length_cons, Nat.succ_le_succ_iff] at h
      show joinSep sep (splitOnGo sep (f + 1) (c :: cs)) = c :: cs
      simp only [splitOnGo]
      split
      · next hcond =>
        simp only [Bool.and_eq_true] at hcond
        obtain ⟨hne, hpre⟩ := hcond
        have hsep : sep ≠ [] := by
          cases sep with
          | nil => simp at hne
          | cons a as => simp
        rw [joinSep_cons_of_ne sep [] _ (splitOnGo_ne_nil sep f _)]
        rw [ih _ (by simp [List.length_drop]; omega)]
        have hdrop := startsWithL_append_drop sep (c :: cs) hpre
        cases sep with
        | nil => exact absurd rfl hsep
        | cons a as =>
          simpa [List.length_cons, List.drop_succ_cons] using hdrop
      · have hind := ih cs h
        cases hsplit : splitOnGo sep f cs with
        | nil => exact absurd hsplit (splitOnGo_ne_nil sep f cs)
        | cons t ts =>
          rw [hsplit] at hind
          simp only
          rw [joinSep_cons_cons, hind]

lemma joinSep_splitOnL (sep s : List Char) : joinSep sep (splitOnL sep s) = s :=
  joinSep_splitOnGo sep s.length s (le_refl _)

/-- Global replacement leaves a string with no occurrence of the pattern
unchanged. -/
lemma replaceAllL_of_not_contains (p r : List Char) :
    ∀ s, containsSub p s = false → replaceAllL p r s = s := by
  intro s
  induction s with
  | nil => intro _; rfl
  | cons c cs ih =>
    intro h
    simp only [containsSub, Bool.or_eq_false_iff] at h
    rw [replaceAllL_cons]
    simp [h.1, ih h.2]


/-- The global single-character replacement `body.replace(/\n/g, "\r\n")`
performed by `buildMailto` is exactly the character-wise CRLF expansion. -/
lemma replaceAllL_newline_eq_crlfExpand :
    ∀ s, replaceAllL ['\n'] crlf s = crlfExpand s := by
  intro s
  induction s with
  | nil => rfl
  | cons c cs ih =>
    rw [replaceAllL_cons]
    by_cases hc : c = '\n'
    · subst hc
      simp [startsWithL, crlfExpand, ih]
    · have : ('\n' == c) = false := by
        simp [beq_iff_eq]
        exact fun h => hc h.symm
      simp [startsWithL, this, crlfExpand, ih, hc]

/-- The `totalLength` field of `checkEmailLength` is 22 (`"mailto:?subject="`
plus `"&body="`) plus the lengths of the two encoded components, in every
branch of the classification. -/
lemma checkEmailLength_totalLength (s b : List Char) :
    (checkEmailLength s b).totalLength =
      16 + (encodeURIComponent s).length + (6 + (encodeURIComponent b).length) := by
  have h16 : ("mailto:?subject=".toList).length = 16 := by decide
  have h6 : ("&body=".toList).length = 6 := by decide
  unfold checkEmailLength
  dsimp only
  split
  · simp [List.length_append, h16, h6]; omega
  · split
    · simp [List.length_append, h16, h6]; omega
    · simp [List.length_append, h16, h6]; omega

lemma criticalMsg_ne_nil (n : Nat) : criticalMsg n ≠ [] := by
  unfold criticalMsg
  intro h
  rcases List.append_eq_nil.mp h with ⟨h1, -⟩
  rcases List.append_eq_nil.mp h1 with ⟨h2, -⟩
  exact absurd h2 (by decide)

lemma warningMsg_ne_nil (n : Nat) : warningMsg n ≠ [] := by
  unfold warningMsg
  intro h
  rcases List.append_eq_nil.mp h with ⟨h1, -⟩
  rcases List.append_eq_nil.mp h1 with ⟨h2, -⟩
  exact absurd h2 (by decide)

lemma trimL_nil : trimL [] = [] := rfl

/-!
## Claim theorems
-/

/-- Claim C1, counterexample: for subject `"s"` and body `"b"` (the rendered
body of campaign body `"b"`), `checkEmailLength` reports `totalLength = 24`,
but the mailto URL actually produced by `generateMailtoLink` for recipient
`a@x.com` with that same subject and body has 31 characters — the checker and
the builder do not agree on length. -/
theorem C1_cex :
    generateEmailBody "b".toList "J".toList "P".toList [] = "b".toList
    ∧ (checkEmailLength "s".toList (generateEmailBody "b".toList "J".toList "P".toList [])).totalLength = 24
    ∧ (generateMailtoLink "a@x.com".toList "s".toList "b".toList "J".toList "P".toList []).length = 31
    ∧ (31 : Nat) ≠ 24 := by
  decide

/-- Claim C1, amended: the checker and the per-recipient builder share the
same encoding of subject and rendered body, but the checker's string omits
the recipient address, so the URL produced by `generateMailtoLink` is always
exactly `recipientEmail.length` characters longer than
`checkEmailLength(...).totalLength`; the two agree exactly only when the
recipient address is empty. -/
theorem C1_length_off_by_recipient :
    ∀ (recipientEmail subject campaignBody fdName fdPostcode fdNote : List Char),
      (generateMailtoLink recipientEmail subject campaignBody fdName fdPostcode fdNote).length =
        (checkEmailLength subject (generateEmailBody campaignBody fdName fdPostcode fdNote)).totalLength
          + recipientEmail.length := by
  intro e s cb n pc note
  rw [checkEmailLength_totalLength]
  unfold generateMailtoLink
  have h7 : ("mailto:".toList).length = 7 := by decide
  have h9 : ("?subject=".toList).length = 9 := by decide
  have h6 : ("&body=".toList).length = 6 := by decide
  simp [List.length_append, h7, h9, h6]
  omega

set_option maxRecDepth 100000 in
/-- Claim C2: `checkEmailLength` classifies against the fixed thresholds —
critical exactly when the encoded total exceeds 2000, warning exactly when it
exceeds 1800 but not 2000; boundary totals 1800 / 1801 / 2000 / 2001 land in
none / warning / warning / critical respectively. -/
theorem C2_threshold_classification :
    (∀ s b,
      ((checkEmailLength s b).isCritical = true ↔ 2000 < (checkEmailLength s b).totalLength)
      ∧ ((checkEmailLength s b).isWarning = true ↔
          (1800 < (checkEmailLength s b).totalLength ∧ (checkEmailLength s b).totalLength ≤ 2000)))
    ∧ (checkEmailLength [] (List.replicate 1778 'a')).totalLength = 1800
    ∧ (checkEmailLength [] (List.replicate 1778 'a')).isWarning = false
    ∧ (checkEmailLength [] (List.replicate 1778 'a')).isCritical = false
    ∧ (checkEmailLength [] (List.replicate 1779 'a')).totalLength = 1801
    ∧ (checkEmailLength [] (List.replicate 1779 'a')).isWarning = true
    ∧ (checkEmailLength [] (List.replicate 1779 'a')).isCritical = false
    ∧ (checkEmailLength [] (List.replicate 1978 'a')).totalLength = 2000
    ∧ (checkEmailLength [] (List.replicate 1978 'a')).isWarning = true
    ∧ (checkEmailLength [] (List.replicate 1978 'a')).isCritical = false
    ∧ (checkEmailLength [] (List.replicate 1979 'a')).totalLength = 2001
    ∧ (checkEmailLength [] (List.replicate 1979 'a')).isWarning = false
    ∧ (checkEmailLength [] (List.replicate 1979 'a')).isCritical = true := by
  refine ⟨?_, by decide, by decide, by decide, by decide, by decide, by decide,
    by decide, by decide, by decide, by decide, by decide, by decide⟩
  intro s b
  unfold checkEmailLength MAILTO_LENGTH_CRITICAL MAILTO_LENGTH_WARNING
  dsimp only
  split
  · next hc => constructor <;> constructor <;> intro h <;> simp_all <;> omega
  · split
    · next hw => constructor <;> constructor <;> intro h <;> simp_all <;> omega
    · next hc hw => constructor <;> constructor <;> intro h <;> simp_all <;> omega

/-- Claim C10: the classification of `checkEmailLength` is exclusive —
`isWarning` and `isCritical` are never both true — and the `message` field is
non-empty exactly when one of the two flags is set. -/
theorem C10_exclusive_classification :
    ∀ s b,
      ((checkEmailLength s b).isWarning && (checkEmailLength s b).isCritical) = false
      ∧ ((checkEmailLength s b).message ≠ [] ↔
          ((checkEmailLength s b).isWarning || (checkEmailLength s b).isCritical) = true) := by
  intro s b
  unfold checkEmailLength
  dsimp only
  split
  · exact ⟨rfl, by simp [criticalMsg_ne_nil]⟩
  · split
    · exact ⟨rfl, by simp [warningMsg_ne_nil]⟩
    · exact ⟨rfl, by simp⟩

/-- Claim C6, counterexample: `handleSendEmails` called with an active
campaign and an *empty* recipient list does not fail fast — it records the
submission, opens zero mailto URLs and reports no error: an empty-but-
successful result. -/
theorem C6_cex :
    handleSendEmails true "s".toList "b".toList [] "J".toList "P".toList [] =
      { submitted := true, openedUrls := [], errorMsg := none } := by
  decide

/-- Claim C6, amended: the letter-document builder does fail fast on an empty
recipient list (no PDF, no letter blocks), but the per-recipient mailto flow
has no such guard: with an active campaign it still records the submission
and opens zero URLs. -/
theorem C6_empty_recipients :
    (∀ (campaign : Option ClientCampaign) (fdName fdEmail fdPostcode fdNote : List Char),
      handleGenerateLetterPDF campaign [] fdName fdEmail fdPostcode fdNote = none)
    ∧ (∀ (subject campaignBody fdName fdPostcode fdNote : List Char),
      handleSendEmails true subject campaignBody [] fdName fdPostcode fdNote =
        { submitted := true, openedUrls := [], errorMsg := none }) := by
  constructor
  · intro campaign n e pc note
    cases campaign <;> simp [handleGenerateLetterPDF]
  · intro subject cb n pc note
    simp [handleSendEmails]

/-- Claim C7, counterexample: for an existing campaign that is private
(`isPublic = false`, `isActive = true`) and a schema-valid sender input, the
submit route answers 403 ("Campaign is not available for participation"),
not the 404 NotFound the claim requires for every non-(existing, public,
active) campaign reference. -/
theorem C7_cex :
    submitRoute (some { isPublic := false, isActive := true })
        { name := "Jane".toList, email := "jane@x.com".toList, postcode := [], personalNote := [] }
        (fun _ => true)
      = { status := 403, stored := none } ∧ (403 : Nat) ≠ 404 := by
  refine ⟨?_, by decide⟩
  decide

/-- Claim C7, amended: the submit route answers 404 when the campaign id
resolves to no campaign, 403 when the campaign exists but is private or
inactive (rejected before validation), 400 when the zod schema validation
fails, and 201 otherwise; a submission row is persisted exactly in the 201
case, so no `EmailSubmission` is created on any error. -/
theorem C7_status_characterization :
    ∀ (lookup : Option CampaignRow) (req : SubmissionReq) (validate : SubmissionReq → Bool),
      ((submitRoute lookup req validate).status =
        match lookup with
        | none => 404
        | some c =>
          if c.isPublic && c.isActive then (if validate req then 201 else 400) else 403)
      ∧ ((submitRoute lookup req validate).stored ≠ none ↔
          (submitRoute lookup req validate).status = 201) := by
  intro lookup req v
  cases lookup with
  | none => simp [submitRoute]
  | some c =>
    obtain ⟨pub, act⟩ := c
    cases pub <;> cases act <;> cases hv : v req <;>
      simp [submitRoute, hv, mkStoredSubmission]

/-- Claim C3 (code bug), evaluated at the failing input: on a template that
contains `{{name}}` twice, the `part_005` substitution (`String.replace` with
a string pattern) replaces only the first occurrence and leaves a literal
`{{name}}` behind, while the server-route substitution (`/g` regex, like the
other call sites in the repository) replaces both. -/
theorem C3_first_occurrence_only :
    p5Render tmplDouble "Jane".toList "BT1".toList = "Jane ".toList ++ nameTok
    ∧ containsSub nameTok (p5Render tmplDouble "Jane".toList "BT1".toList) = true
    ∧ serverRender tmplDouble "Jane".toList "BT1".toList = "Jane Jane".toList
    ∧ containsSub nameTok (serverRender tmplDouble "Jane".toList "BT1".toList) = false := by
  decide

/-- Claim C4, counterexample: for the two-paragraph body `"A\n\nB"` with note
`"N"`, `generateEmailBody` yields `"A\n\nN\n\nB"` — the note is inserted
after the first paragraph, and the body does not end with a blank line
followed by the note. -/
theorem C4_cex :
    generateEmailBody "A\n\nB".toList "J".toList "P".toList "N".toList = "A\n\nN\n\nB".toList
    ∧ endsWithL "\n\nN".toList
        (generateEmailBody "A\n\nB".toList "J".toList "P".toList "N".toList) = false := by
  decide

/-- Claim C4, amended: the note-insertion policy is fixed per call site, not
configurable.  When a non-blank note is supplied, the React client's
`generateEmailBody` appends it after a blank line only when the substituted
body has a single paragraph; with more than one paragraph it splices the
trimmed note in as a second paragraph (first paragraph, blank line, note,
blank line, rest).  The server route always appends `"\n\nP.S. " + note` at
the end. -/
theorem C4_note_policy :
    ∀ (campaignBody fdName fdPostcode note : List Char), trimL note ≠ [] →
      ((splitOnL nl2 (clientRender campaignBody fdName fdPostcode)).length ≤ 1 →
        generateEmailBody campaignBody fdName fdPostcode note =
          clientRender campaignBody fdName fdPostcode ++ nl2 ++ trimL note)
      ∧ (1 < (splitOnL nl2 (clientRender campaignBody fdName fdPostcode)).length →
        generateEmailBody campaignBody fdName fdPostcode note =
          (splitOnL nl2 (clientRender campaignBody fdName fdPostcode)).headD [] ++ nl2 ++
            trimL note ++ nl2 ++
            joinSep nl2 (splitOnL nl2 (clientRender campaignBody fdName fdPostcode)).tail
        ∧ clientRender campaignBody fdName fdPostcode =
          (splitOnL nl2 (clientRender campaignBody fdName fdPostcode)).headD [] ++ nl2 ++
            joinSep nl2 (splitOnL nl2 (clientRender campaignBody fdName fdPostcode)).tail)
      ∧ generateEmailBodyServer campaignBody fdName fdPostcode note =
          serverRender campaignBody fdName fdPostcode ++ psMark ++ note := by
  intro cb n pc note h
  have hnote : note ≠ [] := fun hn => h (by rw [hn]; rfl)
  refine ⟨?_, ?_, ?_⟩
  · intro hlen
    unfold generateEmailBody
    dsimp only
    rw [if_neg h, if_neg (by omega)]
  · intro hlen
    cases hsplit : splitOnL nl2 (clientRender cb n pc) with
    | nil => exact absurd hsplit (splitOnL_ne_nil _ _)
    | cons p0 ps =>
      rw [hsplit] at hlen
      have hps : ps ≠ [] := by
        intro hn
        subst hn
        simp at hlen
      have hjoin : joinSep nl2 (splitOnL nl2 (clientRender cb n pc)) = clientRender cb n pc :=
        joinSep_splitOnL nl2 _
      rw [hsplit, joinSep_cons_of_ne _ _ _ hps] at hjoin
      constructor
      · unfold generateEmailBody
        dsimp only
        rw [if_neg h, hsplit, if_pos hlen]
        simp only [List.headD_cons, List.tail_cons]
        have e1 : joinSep nl2 (p0 :: trimL note :: ps) =
            p0 ++ nl2 ++ joinSep nl2 (trimL note :: ps) := rfl
        rw [e1, joinSep_cons_of_ne _ _ _ hps]
        simp [List.append_assoc]
      · simp only [List.headD_cons, List.tail_cons]
        exact hjoin.symm
  · unfold generateEmailBodyServer
    dsimp only
    rw [if_neg hnote]

/-- Witness for the amended claim C4, at the spec's own scenario shape: body
`"A\n\nB"`, note `"N"` — the note lands between the paragraphs. -/
theorem C4_note_policy_wit :
    generateEmailBody "A\n\nB".toList "J".toList "P".toList "N".toList = "A\n\nN\n\nB".toList := by
  have h := (C4_note_policy "A\n\nB".toList "J".toList "P".toList "N".toList (by decide)).2.1
    (by decide)
  exact h.1.trans (by decide)

/-- Claim C5, counterexample: the server route `/api/generate-email` does not
convert newlines to CRLF before percent-encoding — for the config body
`"a\nb"` the generated URL contains `%0A` (and no `%0D%0A`). -/
theorem C5_cex :
    generateEmailUrl cfgNL "J".toList "P".toList [] =
      "mailto:r@x.com?subject=s&body=a%0Ab".toList
    ∧ containsSub "%0D%0A".toList (generateEmailUrl cfgNL "J".toList "P".toList []) = false := by
  decide

/-- Claim C5, amended: only the legacy static client converts line breaks —
`buildMailto` percent-encodes the character-wise CRLF expansion of the body
(every `'\n'` becomes `"\r\n"` before encoding), with subject and body each
percent-encoded independently; the server route encodes the body without any
newline conversion. -/
theorem C5_crlf_only_in_legacy_client :
    ∀ (cfg : CampaignConfigL) (nameVal pcVal noteVal : List Char),
      buildMailto cfg nameVal pcVal noteVal =
        "mailto:".toList ++ joinSep [','] (cfg.recipients.map LegacyRecipientL.email) ++
          "?subject=".toList ++
          encodeURIComponent
            (if cfg.subject = [] then "Your constituent has concerns".toList else cfg.subject) ++
          "&body=".toList ++
          encodeURIComponent (crlfExpand (p5Body cfg.body nameVal pcVal noteVal)) := by
  intro cfg n pc note
  unfold buildMailto
  dsimp only
  rw [replaceAllL_newline_eq_crlfExpand]

/-- Claim C8: the aggregate builders produce exactly one `mailto:` URL whose
recipient part comma-joins all recipient emails in stored order (never sorted
or deduplicated), with the campaign subject encoded verbatim (not templated)
and one shared rendered body; concrete instances show order preservation
(`a,b` and `b,a`) and duplicate preservation (`a,a`), and `buildMailto`
behaves the same whenever the campaign subject is non-empty (the config
schema requires a non-empty subject). -/
theorem C8_aggregate_mailto :
    (∀ (cfg : CampaignConfigL) (name postcode note : List Char),
      generateEmailUrl cfg name postcode note =
        "mailto:".toList ++ joinSep [','] (cfg.recipients.map LegacyRecipientL.email) ++
          "?subject=".toList ++ encodeURIComponent cfg.subject ++
          "&body=".toList ++
          encodeURIComponent (generateEmailBodyServer cfg.body name postcode note))
    ∧ generateEmailUrl cfgAB "J".toList "P".toList [] =
        "mailto:a@x.com,b@x.com?subject=s&body=hi".toList
    ∧ generateEmailUrl cfgBA "J".toList "P".toList [] =
        "mailto:b@x.com,a@x.com?subject=s&body=hi".toList
    ∧ generateEmailUrl cfgAA "J".toList "P".toList [] =
        "mailto:a@x.com,a@x.com?subject=s&body=hi".toList
    ∧ (∀ (cfg : CampaignConfigL) (nameVal pcVal noteVal : List Char), cfg.subject ≠ [] →
      buildMailto cfg nameVal pcVal noteVal =
        "mailto:".toList ++ joinSep [','] (cfg.recipients.map LegacyRecipientL.email) ++
          "?subject=".toList ++ encodeURIComponent cfg.subject ++
          "&body=".toList ++
          encodeURIComponent (replaceAllL ['\n'] crlf (p5Body cfg.body nameVal pcVal noteVal))) := by
  refine ⟨fun cfg n pc note => rfl, by decide, by decide, by decide, ?_⟩
  intro cfg n pc note h
  unfold buildMailto
  dsimp only
  rw [if_neg h]

/-- Witness for claim C8's non-empty-subject hypothesis, at the config with
recipients `[a@x.com, b@x.com]` and subject `"s"`. -/
theorem C8_aggregate_mailto_wit :
    cfgAB.subject ≠ []
    ∧ buildMailto cfgAB "J".toList "P".toList [] =
        "mailto:".toList ++ joinSep [','] (cfgAB.recipients.map LegacyRecipientL.email) ++
          "?subject=".toList ++ encodeURIComponent cfgAB.subject ++
          "&body=".toList ++
          encodeURIComponent (replaceAllL ['\n'] crlf (p5Body cfgAB.body "J".toList "P".toList [])) :=
  ⟨by decide, C8_aggregate_mailto.2.2.2.2 cfgAB "J".toList "P".toList [] (by decide)⟩

/-- Claim C9, counterexample: token-free vars do not guarantee idempotence.
With the template `"\x7b\x7bnam" ++ "\x7b\x7bname\x7d\x7d"`, name `"e\x7d\x7d"` and
postcode `"x"` (neither value contains a `{{name}}` or `{{postcode}}` token),
one render splices a fresh `{{name}}` token together, so rendering the output
again changes it. -/
theorem C9_cex :
    containsSub nameTok "e\x7d\x7d".toList = false
    ∧ containsSub pcTok "e\x7d\x7d".toList = false
    ∧ containsSub nameTok "x".toList = false
    ∧ containsSub pcTok "x".toList = false
    ∧ serverRender (serverRender tmplSplice "e\x7d\x7d".toList "x".toList)
        "e\x7d\x7d".toList "x".toList
      ≠ serverRender tmplSplice "e\x7d\x7d".toList "x".toList := by
  decide

/-- Claim C9, amended: re-substitution with the same vars is the identity on
any rendered output that contains no remaining `{{name}}` or `{{postcode}}`
substring (token-free vars alone do not suffice, because replacement
boundaries can splice new tokens together). -/
theorem C9_idempotent_when_output_token_free :
    ∀ (T n pc : List Char),
      containsSub nameTok (serverRender T n pc) = false →
      containsSub pcTok (serverRender T n pc) = false →
      serverRender (serverRender T n pc) n pc = serverRender T n pc := by
  intro T n pc h1 h2
  have e1 : replaceAllL nameTok n (serverRender T n pc) = serverRender T n pc :=
    replaceAllL_of_not_contains _ _ _ h1
  have e2 : replaceAllL pcTok pc (serverRender T n pc) = serverRender T n pc :=
    replaceAllL_of_not_contains _ _ _ h2
  calc serverRender (serverRender T n pc) n pc
      = replaceAllL pcTok pc (replaceAllL nameTok n (serverRender T n pc)) := rfl
    _ = replaceAllL pcTok pc (serverRender T n pc) := by rw [e1]
    _ = serverRender T n pc := e2

/-- Witness for the amended claim C9: the spec's greeting template with vars
`Jane` / `BT1` renders to token-free output, and re-rendering it is the
identity. -/
theorem C9_idempotent_when_output_token_free_wit :
    serverRender (serverRender tmplGreeting "Jane".toList "BT1".toList)
        "Jane".toList "BT1".toList
      = serverRender tmplGreeting "Jane".toList "BT1".toList :=
  C9_idempotent_when_output_token_free tmplGreeting "Jane".toList "BT1".toList
    (by decide) (by decide)
